import Mathlib

/-!
A shallow embedding of the GEAR `validate` command (the rule validation
engine): the tree walker with exclusion filtering, the declaration model,
the six rule checkers, the external type resolver and the
reporting / exit-code logic, together with theorems settling the
specification's claims about them.

Go strings are modelled as `List Char`; Go maps are modelled as
association lists carrying one concrete iteration order; filesystem state
(`os.Stat`, `filepath.Walk`) is passed explicitly.
-/

/-- Go strings are modelled as lists of characters. -/
abbrev GoStr := List Char

/-- Turn a Lean string literal into the `GoStr` model. -/
def gs (s : String) : GoStr := s.data

/-- Models Go `strings.Contains s sub`. -/
def goContains (s sub : GoStr) : Bool := decide (sub <:+: s)

/-- Models Go `strings.HasSuffix s suf`. -/
def goHasSuffix (s suf : GoStr) : Bool := decide (suf <:+ s)

/-- Models Go `strings.HasPrefix s p`. -/
def goStartsWith (s p : GoStr) : Bool := decide (p <+: s)

/-- Models Go `strings.TrimSpace`. -/
def goTrimSpace (s : GoStr) : GoStr :=
  ((s.dropWhile Char.isWhitespace).reverse.dropWhile Char.isWhitespace).reverse

/-- Models Go `strings.TrimPrefix s p`: drop `p` when it leads `s`. -/
def goTrimPre (s p : GoStr) : GoStr :=
  if goStartsWith s p then s.drop p.length else s

/-- Models Go `path/filepath.Base` for slash-separated paths. -/
def goBase (path : GoStr) : GoStr :=
  if path = [] then gs "."
  else
    let p := (path.reverse.dropWhile (· = '/')).reverse
    if p = [] then gs "/"
    else (p.reverse.takeWhile (· ≠ '/')).reverse

/-- Models Go `path/filepath.Match` restricted to patterns made of literal
characters and the wildcards `*` and `?` (no character classes or escapes;
`*` and `?` never match `/`).  In `parseProject` this function is only
reached for patterns containing `*` or `?`; no claim below depends on its
value. -/
def goMatch : GoStr → GoStr → Bool
  | [], [] => true
  | [], _ :: _ => false
  | pc :: p, [] => pc = '*' && goMatch p []
  | pc :: p, c :: s =>
    if pc = '*' then goMatch p (c :: s) || (!(c = '/') && goMatch (pc :: p) s)
    else if pc = '?' then !(c = '/') && goMatch p s
    else (pc = c) && goMatch p s
termination_by p s => (s.length, p.length)

/-- Source position (line and column), modelling what
`globalFileSet.Position` yields for a `token.Pos`.  Positions are attached
directly to the syntax nodes of the model. -/
structure Pos where
  line : Nat
  column : Nat
deriving DecidableEq, Repr

/-- Type expressions as the checkers inspect them: plain identifiers,
qualified identifiers (`pkg.Name`, i.e. `ast.SelectorExpr`), pointer types
(`ast.StarExpr`, carrying the star's position) and anything else. -/
inductive Expr where
  | ident (name : GoStr)
  | sel (pkgAlias : GoStr) (name : GoStr)
  | star (pos : Pos) (inner : Expr)
  | other
deriving DecidableEq, Repr

/-- An `ast.Field`: a possibly-empty list of names and a type expression
(struct fields, receivers, parameters and results all have this shape). -/
structure FieldM where
  names : List GoStr
  type : Expr
deriving DecidableEq, Repr

/-- The kind of a declared type: interface, struct (with its fields) or
other.  The modelled interfaces have empty bodies, as in every input the
claims exercise. -/
inductive TypeKind where
  | interfaceType
  | structType (fields : List FieldM)
  | otherType
deriving DecidableEq, Repr

/-- An `ast.TypeSpec` inside a `type` declaration. -/
structure TypeSpecM where
  name : GoStr
  kind : TypeKind
  pos : Pos
deriving DecidableEq, Repr

/-- An `ast.FuncDecl`: name, optional receiver field list, parameters,
results, position.  Bodies are not modelled (the checkers never look at
statement bodies, only at declarations and their type expressions). -/
structure FuncDeclM where
  name : GoStr
  recv : Option (List FieldM)
  params : List FieldM
  results : List FieldM
  pos : Pos
deriving DecidableEq, Repr

/-- A top-level declaration of a file. -/
inductive DeclM where
  | typeDecl (specs : List TypeSpecM)
  | funcDecl (f : FuncDeclM)
  | otherDecl
deriving DecidableEq, Repr

/-- An import spec: optional alias (`imp.Name`) and the import path. -/
structure ImportM where
  impName : Option GoStr
  path : GoStr
deriving DecidableEq, Repr

/-- An `ast.File`: declared package name, imports and declarations. -/
structure FileM where
  pkgName : GoStr
  imports : List ImportM
  decls : List DeclM
deriving DecidableEq, Repr

/-- An `ast.Package`: name and the `Files` map as a `(path, file)` list in
one concrete iteration order. -/
structure PackageM where
  name : GoStr
  files : List (GoStr × FileM)
deriving DecidableEq, Repr

/-- The `ValidationError` struct of the source: one diagnostic. -/
structure ValidationError where
  Rule : GoStr
  File : GoStr
  Line : Nat
  Column : Nat
  Message : GoStr
  Severity : GoStr
deriving DecidableEq, Repr

/-- The `GearConfig` struct (`.gearrc`): exclusion patterns and the map
from rule identifier to severity override. -/
structure GearConfig where
  Exclude : List GoStr
  Rules : List (GoStr × GoStr)
deriving DecidableEq, Repr

/-- What the walk callback of `parseProject` does at one visited path. -/
inductive WalkAction where
  | cont                 -- returned nil without parsing (file skipped or directory descended)
  | skipDir              -- returned filepath.SkipDir
  | parseAdd (f : FileM) -- file parsed successfully and added to its package
  | stop                 -- returned a non-nil error (read/parse failure): the walk aborts
deriving DecidableEq, Repr

/-- Exclusion rule 1: exact base-name match (`filepath.Base(path) == pattern`). -/
def baseNameMatch (pat path : GoStr) : Bool := goBase path == pat

/-- Exclusion rule 2: directory-containment match
(`strings.Contains(path, pattern+"/") || strings.HasSuffix(path, "/"+pattern)`). -/
def containmentMatch (pat path : GoStr) : Bool :=
  goContains path (pat ++ gs "/") || goHasSuffix path (gs "/" ++ pat)

/-- Exclusion rule 3: glob match (only for patterns containing `*` or `?`)
against the base name or the whole relative path. -/
def globMatch (pat path : GoStr) : Bool :=
  (goContains pat (gs "*") || goContains pat (gs "?")) &&
    (goMatch pat (goBase path) || goMatch pat path)

/-- One iteration of the exclusion-pattern loop: does this (trimmed)
pattern make the callback return nil for this path? -/
def patternSkips (pat0 path : GoStr) : Bool :=
  let pat := goTrimSpace pat0
  !pat.isEmpty && (baseNameMatch pat path || containmentMatch pat path || globMatch pat path)

/-- One iteration of the directory-pruning loop: does this (trimmed)
pattern make the callback return `filepath.SkipDir`
(`strings.HasSuffix(path, excludeDir)`)? -/
def dirPatternSkips (pat0 path : GoStr) : Bool :=
  let pat := goTrimSpace pat0
  !pat.isEmpty && goHasSuffix path pat

/-- The walk callback of `parseProject`, as a decision on one visited path.
`parsed` models the outcome of `os.ReadFile` + `parser.ParseFile` on the
file (`none` = read or parse error).  The checks appear in source order:
the unconditional `.go` / `vendor/` / `.git/` filter, then the
user-pattern loop, then directory pruning, then parsing. -/
def walkDecision (excludeDirs : List GoStr) (path : GoStr) (isDir : Bool)
    (parsed : Option FileM) : WalkAction :=
  if !goHasSuffix path (gs ".go") || goContains path (gs "vendor/")
      || goContains path (gs ".git/") then .cont
  else if excludeDirs.any (fun pat => patternSkips pat path) then .cont
  else if isDir && excludeDirs.any (fun pat => dirPatternSkips pat path) then .skipDir
  else
    match parsed with
    | some f => .parseAdd f
    | none => .stop

/-- Insert a parsed file into the package map, grouping by the *declared*
package name; the list keeps map-insertion order. -/
def addFile (pkgs : List PackageM) (path : GoStr) (f : FileM) : List PackageM :=
  if pkgs.any (fun p => p.name == f.pkgName) then
    pkgs.map (fun p =>
      if p.name == f.pkgName then { p with files := p.files ++ [(path, f)] } else p)
  else pkgs ++ [⟨f.pkgName, [(path, f)]⟩]

/-- One entry of the walked tree, in `filepath.Walk` visit order. -/
structure FSEntry where
  path : GoStr
  isDir : Bool
  parsed : Option FileM
deriving DecidableEq, Repr

/-- Is `q` strictly below directory `d`?  (`filepath.SkipDir` on `d` makes
the walk skip exactly these entries.) -/
def underDir (d q : GoStr) : Bool := goStartsWith q (d ++ gs "/")

/-- Is the walker currently discarding this entry because an enclosing
directory returned `filepath.SkipDir`? -/
def skippedBy (skipping : Option GoStr) (path : GoStr) : Bool :=
  match skipping with
  | some d => underDir d path
  | none => false

/-- `filepath.Walk` running the `parseProject` callback over the entry
list (which is in depth-first visit order, so the subtree of a skipped
directory is contiguous): returns the package map built so far and
whether the walk aborted with an error (Go's `Walk` stops at the first
non-`SkipDir` error and `parseProject` returns that error alongside the
partial map).  `skipping` holds the directory whose subtree a
`filepath.SkipDir` result is currently discarding. -/
def runWalk (excl : List GoStr) : List FSEntry → Option GoStr → List PackageM →
    List PackageM × Bool
  | [], _, acc => (acc, false)
  | e :: rest, skipping, acc =>
    if skippedBy skipping e.path then runWalk excl rest skipping acc
    else
      match walkDecision excl e.path e.isDir e.parsed with
      | .cont => runWalk excl rest none acc
      | .skipDir => runWalk excl rest (some e.path) acc
      | .parseAdd f => runWalk excl rest none (addFile acc e.path f)
      | .stop => (acc, true)

/-- `parseProject`: walk the tree, building the package map; the boolean
is true when the walk stopped on an error (the packages built before the
failure are still returned, as in the source). -/
def parseProject (fs : List FSEntry) (excl : List GoStr) : List PackageM × Bool :=
  runWalk excl fs none []

/-- Models `ast.Ident.IsExported`: first character upper-case. -/
def isExportedName (n : GoStr) : Bool :=
  match n with
  | [] => false
  | c :: _ => c.isUpper

/-- All type specs of the file's `type` declarations, in source order. -/
def typeSpecsOf (f : FileM) : List TypeSpecM :=
  f.decls.flatMap (fun d =>
    match d with
    | .typeDecl specs => specs
    | _ => [])

def isInterfaceKind : TypeKind → Bool
  | .interfaceType => true
  | _ => false

def isStructKind : TypeKind → Bool
  | .structType _ => true
  | _ => false

/-- `structHasMethods`: some function declaration in the same file has
this struct (or a pointer to it) as its receiver. -/
def structHasMethods (structName : GoStr) (file : FileM) : Bool :=
  file.decls.any (fun d =>
    match d with
    | .funcDecl fd =>
      match fd.recv with
      | none => false
      | some recvList =>
        recvList.any (fun r =>
          match r.type with
          | .ident n => n == structName
          | .star _ (.ident n) => n == structName
          | _ => false)
    | _ => false)

/-- The hard-coded data-struct name suffix table of `isDataStruct`. -/
def dataStructSuffixes : List GoStr :=
  [gs "Request", gs "Response", gs "Model", gs "DTO", gs "Data", gs "Entity",
   gs "Config", gs "Settings", gs "Options", gs "Params", gs "Result", gs "Info",
   gs "Status", gs "State", gs "Event", gs "Message", gs "Payload", gs "Body",
   gs "Error", gs "Exception", gs "Notification", gs "Alert", gs "Report"]

/-- The hard-coded data-struct name verb table of `isDataStruct`. -/
def dataStructVerbs : List GoStr :=
  [gs "Create", gs "Update", gs "Delete", gs "Get", gs "List", gs "Search"]

/-- `isDataStruct`: name ends with a data suffix or starts with a CRUD verb. -/
def isDataStruct (name : GoStr) : Bool :=
  dataStructSuffixes.any (fun suf => goHasSuffix name suf) ||
  dataStructVerbs.any (fun v => goStartsWith name v)

/-- `shouldBeUnexported`, with the source's early-return cascade. -/
def shouldBeUnexported (structName filePath : GoStr) (file : FileM) : Bool :=
  if !structHasMethods structName file then false
  else if isDataStruct structName then false
  else if goContains filePath (gs "/model/") || goContains filePath (gs "/proto/")
      || goContains filePath (gs "/dto/") || goContains filePath (gs "/client/")
      || goContains filePath (gs "/provider/") then false
  else if goContains filePath (gs "/config/") || goHasSuffix structName (gs "Config") then false
  else if goContains filePath (gs "/errors/") then false
  else if goContains filePath (gs "/service/") || goContains filePath (gs "/handler/")
      || goContains filePath (gs "/repository/") then true
  else !isDataStruct structName

def msgR01Struct (n : GoStr) : GoStr :=
  gs "Struct '" ++ n ++
  gs "' is exported - GEAR prefers unexported structs with exported interfaces for service/business logic"

def msgR01Iface (n : GoStr) : GoStr :=
  gs "Interface '" ++ n ++ gs "' is unexported - GEAR requires exported interfaces"

/-- `validateInterfaceContracts` (registered as rule R01): per file, flag
exported business-logic structs (warning), then unexported interfaces
(error). -/
def validateInterfaceContracts (pkg : PackageM) : List ValidationError :=
  pkg.files.flatMap (fun pf =>
    let filePath := pf.1
    let file := pf.2
    let specs := typeSpecsOf file
    let structs := specs.filter (fun ts => isStructKind ts.kind)
    let ifaces := specs.filter (fun ts => isInterfaceKind ts.kind)
    (structs.filter (fun ts =>
        isExportedName ts.name && shouldBeUnexported ts.name filePath file)).map
      (fun ts => ⟨gs "R01-interface-contracts", filePath, ts.pos.line, ts.pos.column,
                  msgR01Struct ts.name, gs "warning"⟩)
    ++ (ifaces.filter (fun ts => !isExportedName ts.name)).map
      (fun ts => ⟨gs "R01-interface-contracts", filePath, ts.pos.line, ts.pos.column,
                  msgR01Iface ts.name, gs "error"⟩))

def msgConstructor (n : GoStr) : GoStr :=
  gs "Constructor '" ++ n ++ gs "' returns pointer to struct - GEAR constructors should return interfaces"

/-- The utility/data path categories skipped by the constructor check. -/
def constructorPathExcluded (filePath : GoStr) : Bool :=
  goContains filePath (gs "/errors/") || goContains filePath (gs "/utils/")
  || goContains filePath (gs "/util/") || goContains filePath (gs "/config/")
  || goContains filePath (gs "/model/") || goContains filePath (gs "/dto/")
  || goContains filePath (gs "/proto/")

/-- `validateConstructorPatterns` (registered as rule R03, but emitting
under the identifier `R02-constructor-patterns`): flag `New*` functions
whose first result is a pointer to a plain identifier type. -/
def validateConstructorPatterns (pkg : PackageM) : List ValidationError :=
  pkg.files.flatMap (fun pf =>
    let filePath := pf.1
    pf.2.decls.flatMap (fun d =>
      match d with
      | .funcDecl fd =>
        if !goStartsWith fd.name (gs "New") then []
        else if constructorPathExcluded filePath then []
        else
          match fd.results with
          | [] => []
          | r0 :: _ =>
            match r0.type with
            | .star _ (.ident _) =>
              [⟨gs "R02-constructor-patterns", filePath, fd.pos.line, fd.pos.column,
                msgConstructor fd.name, gs "warning"⟩]
            | _ => []
      | _ => []))

/-- `validateDomainBoundaries` (R04 stub): the directory probe loop has no
effect and the function always returns no diagnostics. -/
def validateDomainBoundaries (_pkg : PackageM) : List ValidationError := []

/-- `validateCentralizedConfig` (registered as rule R05, but emitting
under `R04-centralized-config`): one error diagnostic when the
`internal/config` directory is missing.  `configDirExists` models the
`os.Stat` probe; note the check is invoked once per package. -/
def validateCentralizedConfig (configDirExists : Bool) (_pkg : PackageM) : List ValidationError :=
  if !configDirExists then
    [⟨gs "R04-centralized-config", gs "internal/config", 0, 0,
      gs "Missing internal/config package - GEAR requires centralized configuration", gs "error"⟩]
  else []

/-- `validateSystematicErrors` (registered as rule R06, but emitting under
`R05-systematic-errors`): one error diagnostic when the `internal/errors`
directory is missing. -/
def validateSystematicErrors (errorsDirExists : Bool) (_pkg : PackageM) : List ValidationError :=
  if !errorsDirExists then
    [⟨gs "R05-systematic-errors", gs "internal/errors", 0, 0,
      gs "Missing internal/errors package - GEAR requires systematic error handling", gs "error"⟩]
  else []

/-- Go map insert (overwriting) on an association list. -/
def mapInsert (m : List (GoStr × GoStr)) (k v : GoStr) : List (GoStr × GoStr) :=
  if m.any (fun kv => kv.1 == k) then m.map (fun kv => if kv.1 == k then (k, v) else kv)
  else m ++ [(k, v)]

def mapLookup (m : List (GoStr × GoStr)) (k : GoStr) : Option GoStr :=
  (m.find? (fun kv => kv.1 == k)).map (·.2)

/-- Last `/`-separated component of an import path (Go:
`parts[len(parts)-1]` after `strings.Split(path, "/")`). -/
def lastPathComponent (p : GoStr) : GoStr :=
  (p.reverse.takeWhile (· ≠ '/')).reverse

/-- Build the per-file alias → import-path map of `validateInterfaceUsage`. -/
def importsOf (file : FileM) : List (GoStr × GoStr) :=
  file.imports.foldl (fun m imp =>
    match imp.impName with
    | some a => mapInsert m a imp.path
    | none => mapInsert m (lastPathComponent imp.path) imp.path) []

/-- `file.Scope.Lookup name` restricted to type objects: the type spec
declared under `name` in this file, if any. -/
def fileLookupType (file : FileM) (name : GoStr) : Option TypeSpecM :=
  (typeSpecsOf file).find? (fun ts => ts.name == name)

/-- Is `name` declared as an interface in this file's scope? -/
def isInterfaceLocal (file : FileM) (name : GoStr) : Bool :=
  match fileLookupType file name with
  | some ts => isInterfaceKind ts.kind
  | none => false

/-- `checkTypeInPackage`: scan the package's type specs in file/decl order
and, at the first spec with the requested name, report whether it is an
interface. -/
def checkTypeInPackage (pkg : PackageM) (typeName : GoStr) : Bool :=
  match (pkg.files.flatMap (fun pf => typeSpecsOf pf.2)).find? (fun ts => ts.name == typeName) with
  | some ts => isInterfaceKind ts.kind
  | none => false

/-- The local-package environment seen by the external type resolver: for
a relative directory path under the root, the package parsed from its
non-test Go files (absence models `os.Stat` failing or no parseable
files).  The source's memoisation cache is semantically transparent
(re-resolution is convergent) and is not modelled. -/
abbrev ExtEnv := List (GoStr × PackageM)

/-- `isExternalInterface`: strip the hard-coded module-root marker from
the imported path, resolve the resulting directory locally, and scan the parsed
package for `typeName`; unresolvable imports yield `false`. -/
def isExternalInterface (env : ExtEnv) (packagePath typeName : GoStr) : Bool :=
  let rel := goTrimPre packagePath (gs "github.com/nex-prospect/nex-core-service/")
  match (env.find? (fun kv => kv.1 == rel)).map (·.2) with
  | some pkg => checkTypeInPackage pkg typeName
  | none => false

/-- The syntax nodes `validateInterfaceUsage`'s `ast.Inspect` callback
dispatches on, listed in the depth-first pre-order of the traversal. -/
inductive UNode where
  | structNode (fields : List FieldM)
  | starNode (pos : Pos) (inner : Expr)
  | funcNode (fd : FuncDeclM)
deriving DecidableEq, Repr

/-- Relevant nodes inside a type expression (pre-order): every star
expression is itself visited by the traversal. -/
def nodesOfExpr : Expr → List UNode
  | .star pos inner => .starNode pos inner :: nodesOfExpr inner
  | _ => []

def nodesOfFields (fs : List FieldM) : List UNode :=
  fs.flatMap (fun f => nodesOfExpr f.type)

/-- Relevant nodes of one top-level declaration, pre-order: a struct type
node is visited before the star expressions nested in its fields, a
function declaration before the star expressions nested in its receiver,
parameter and result lists. -/
def nodesOfDecl : DeclM → List UNode
  | .typeDecl specs =>
    specs.flatMap (fun ts =>
      match ts.kind with
      | .structType fields => .structNode fields :: nodesOfFields fields
      | _ => [])
  | .funcDecl fd =>
    .funcNode fd ::
      (nodesOfFields (fd.recv.getD []) ++ nodesOfFields fd.params ++ nodesOfFields fd.results)
  | .otherDecl => []

/-- All relevant nodes of a file, in `ast.Inspect` visit order. -/
def inspectNodes (file : FileM) : List UNode :=
  file.decls.flatMap nodesOfDecl

/-- The `isInterface` computation shared by the struct-field and
parameter cases: local identifiers through the file scope, qualified
identifiers through the import map and the external resolver. -/
def starInnerIsInterface (env : ExtEnv) (file : FileM)
    (imports : List (GoStr × GoStr)) : Expr → Bool
  | .ident n => isInterfaceLocal file n
  | .sel a n =>
    match mapLookup imports a with
    | some pp => isExternalInterface env pp n
    | none => false
  | _ => false

/-- Field/parameter display name: first declared name, else the type name. -/
def fieldDisplayName (f : FieldM) (typeName : GoStr) : GoStr :=
  match f.names with
  | n :: _ => n
  | [] => typeName

def innerTypeName : Expr → Option GoStr
  | .ident n => some n
  | .sel _ n => some n
  | _ => none

def msgFieldPtr (fieldName typeName : GoStr) : GoStr :=
  gs "Struct field '" ++ fieldName ++ gs "' has type '*" ++ typeName ++
  gs "' - pointer to interface is an anti-pattern, use '" ++ typeName ++ gs "' instead"

def msgBarePtr (typeName : GoStr) : GoStr :=
  gs "Pointer to interface '*" ++ typeName ++
  gs "' is an anti-pattern - interfaces are already reference types"

def msgParamPtr (paramName typeName : GoStr) : GoStr :=
  gs "Function parameter '" ++ paramName ++ gs "' has type '*" ++ typeName ++
  gs "' - pointer to interface is an anti-pattern, use '" ++ typeName ++ gs "' instead"

def msgResultPtr (typeName : GoStr) : GoStr :=
  gs "Function returns '*" ++ typeName ++ gs "' - pointer to interface, use '" ++
  typeName ++ gs "' instead"

/-- Diagnostics the `ast.Inspect` callback emits at one node: the
struct-field case, the bare star-expression case and the function
parameter/result case of the source's type switch. -/
def usageAtNode (env : ExtEnv) (filePath : GoStr) (file : FileM)
    (imports : List (GoStr × GoStr)) : UNode → List ValidationError
  | .structNode fields =>
    fields.flatMap (fun fld =>
      match fld.type with
      | .star pos inner =>
        match innerTypeName inner with
        | some tn =>
          if starInnerIsInterface env file imports inner then
            [⟨gs "R06-interface-usage", filePath, pos.line, pos.column,
              msgFieldPtr (fieldDisplayName fld tn) tn, gs "error"⟩]
          else []
        | none => []
      | _ => [])
  | .starNode pos inner =>
    match inner with
    | .ident n =>
      if isInterfaceLocal file n then
        [⟨gs "R06-interface-usage", filePath, pos.line, pos.column, msgBarePtr n, gs "error"⟩]
      else []
    | _ => []
  | .funcNode fd =>
    (fd.params.flatMap (fun fld =>
      match fld.type with
      | .star pos inner =>
        match innerTypeName inner with
        | some tn =>
          if starInnerIsInterface env file imports inner then
            [⟨gs "R06-interface-usage", filePath, pos.line, pos.column,
              msgParamPtr (fieldDisplayName fld tn) tn, gs "error"⟩]
          else []
        | none => []
      | _ => []))
    ++ (fd.results.flatMap (fun fld =>
      match fld.type with
      | .star pos (.ident n) =>
        if isInterfaceLocal file n then
          [⟨gs "R06-interface-usage", filePath, pos.line, pos.column, msgResultPtr n, gs "error"⟩]
        else []
      | _ => []))

/-- `validateInterfaceUsage` (registered as rule R02, but emitting under
`R06-interface-usage`): per file, build the import map and fold the
`ast.Inspect` callback over every node of the file in traversal order. -/
def validateInterfaceUsage (env : ExtEnv) (pkg : PackageM) : List ValidationError :=
  pkg.files.flatMap (fun pf =>
    let imports := importsOf pf.2
    (inspectNodes pf.2).flatMap (usageAtNode env pf.1 pf.2 imports))

/-- The rule loop of `validateProject`: every registered rule, in
registration order, applied to every package in the given map-iteration
order.  `configDirExists` / `errorsDirExists` model the `os.Stat` probes
done by the R05/R06 checkers. -/
def runRules (env : ExtEnv) (configDirExists errorsDirExists : Bool)
    (pkgs : List PackageM) : List ValidationError :=
  pkgs.flatMap validateInterfaceContracts
  ++ pkgs.flatMap (validateInterfaceUsage env)
  ++ pkgs.flatMap validateConstructorPatterns
  ++ pkgs.flatMap validateDomainBoundaries
  ++ pkgs.flatMap (validateCentralizedConfig configDirExists)
  ++ pkgs.flatMap (validateSystematicErrors errorsDirExists)

/-- The reporter's error counter (the `switch err.Severity` loop). -/
def errorCount (ds : List ValidationError) : Nat :=
  ds.countP (fun d => d.Severity == gs "error")

/-- The reporter's warning counter. -/
def warningCount (ds : List ValidationError) : Nat :=
  ds.countP (fun d => d.Severity == gs "warning")

/-- Process exit status of the report phase: `os.Exit(1)` when the error
count is positive, normal return (exit 0) otherwise. -/
def exitCodeOf (ds : List ValidationError) : Nat :=
  if 0 < errorCount ds then 1 else 0

/-- Outcome of a `validateProject` run: a fatal pre-report error (missing
`go.mod`, unloadable `.gearrc`, parse failure — surfaced to the CLI as a
non-nil error) or a completed report with its diagnostics and exit code. -/
inductive RunOutcome where
  | fatal
  | success (diags : List ValidationError) (exit : Nat)
deriving DecidableEq, Repr

/-- `validateProject`: the full run.  CLI exclusions win over `.gearrc`
exclusions when non-empty; `config = none` models a `.gearrc` that fails
to load.  `config.Rules` is carried but never consulted anywhere in the
run, exactly as in the source. -/
def validateProject (goModExists : Bool) (config : Option GearConfig)
    (cliExclude : List GoStr) (fs : List FSEntry) (env : ExtEnv)
    (configDirExists errorsDirExists : Bool) : RunOutcome :=
  if !goModExists then .fatal
  else
    match config with
    | none => .fatal
    | some cfg =>
      let excl := if cliExclude.isEmpty && !cfg.Exclude.isEmpty then cfg.Exclude else cliExclude
      match parseProject fs excl with
      | (_, true) => .fatal
      | (pkgs, false) =>
        let ds := runRules env configDirExists errorsDirExists pkgs
        .success ds (exitCodeOf ds)

def RunOutcome.diags : RunOutcome → List ValidationError
  | .fatal => []
  | .success ds _ => ds

def RunOutcome.exitCode : RunOutcome → Option Nat
  | .fatal => none
  | .success _ e => some e

/-! ### Claim-side definitions (written from the spec's words, for
refinement comparison against the code's behaviour) -/

/-- Following the spec's words: the *effective* severity of a diagnostic
under a configuration — the configuration's severity override for the
diagnostic's rule identifier when present, else the diagnostic's coded
severity. -/
def specEffectiveSeverity (rules : List (GoStr × GoStr)) (d : ValidationError) : GoStr :=
  (mapLookup rules d.Rule).getD d.Severity

/-- Following the spec's words (claim C7): the pattern appears as a full
path segment of the path — as the leading segment, an interior segment,
or the final segment. -/
def specFullSegment (pat path : GoStr) : Bool :=
  goStartsWith path (pat ++ gs "/") || goContains path (gs "/" ++ pat ++ gs "/")
  || goHasSuffix path (gs "/" ++ pat)

/-! ### Concrete scenario inputs -/

/-- Scenario C file: `package foo` declaring `type Repo interface{}` and
`type s struct { repo *Repo }`. -/
def scenCFile : FileM :=
  { pkgName := gs "foo"
    imports := []
    decls :=
      [ .typeDecl [⟨gs "Repo", .interfaceType, ⟨3, 6⟩⟩]
      , .typeDecl [⟨gs "s", .structType [⟨[gs "repo"], .star ⟨6, 8⟩ (.ident (gs "Repo"))⟩], ⟨5, 6⟩⟩] ] }

def scenCPath : GoStr := gs "pkg/foo/repo.go"

def scenCPkg : PackageM := ⟨gs "foo", [(scenCPath, scenCFile)]⟩

def scenCFS : List FSEntry := [⟨scenCPath, false, some scenCFile⟩]

/-- The diagnostics the interface-usage checker emits on Scenario C. -/
def scenCUsage : List ValidationError := validateInterfaceUsage [] scenCPkg

/-- Scenario E file: `package bar` with `type foo struct{}` and
`func NewFoo() *foo`. -/
def scenEFile : FileM :=
  { pkgName := gs "bar"
    imports := []
    decls :=
      [ .typeDecl [⟨gs "foo", .structType [], ⟨3, 6⟩⟩]
      , .funcDecl ⟨gs "NewFoo", none, [], [⟨[], .star ⟨5, 15⟩ (.ident (gs "foo"))⟩], ⟨5, 1⟩⟩ ] }

def scenEPath : GoStr := gs "pkg/bar/svc.go"

def scenEPkg : PackageM := ⟨gs "bar", [(scenEPath, scenEFile)]⟩

def scenEDiags : List ValidationError := validateConstructorPatterns scenEPkg

/-- Two declaration-free packages (used to count per-package emissions). -/
def emptyFileA : FileM := ⟨gs "a", [], []⟩

def emptyFileB : FileM := ⟨gs "b", [], []⟩

def pkgA : PackageM := ⟨gs "a", [(gs "a/a.go", emptyFileA)]⟩

def pkgB : PackageM := ⟨gs "b", [(gs "b/b.go", emptyFileB)]⟩

/-- Two packages that each produce exactly one diagnostic (an unexported
interface, flagged by R01 as an error). -/
def fileP : FileM := ⟨gs "p", [], [.typeDecl [⟨gs "iface", .interfaceType, ⟨2, 6⟩⟩]]⟩

def fileQ : FileM := ⟨gs "q", [], [.typeDecl [⟨gs "jface", .interfaceType, ⟨2, 6⟩⟩]]⟩

def pkgP : PackageM := ⟨gs "p", [(gs "p/p.go", fileP)]⟩

def pkgQ : PackageM := ⟨gs "q", [(gs "q/q.go", fileQ)]⟩

/-- A three-file tree whose middle file fails to parse. -/
def fileA3 : FileM := ⟨gs "alpha", [], []⟩

def fileC3 : FileM := ⟨gs "gamma", [], []⟩

def scen3FS : List FSEntry :=
  [⟨gs "a.go", false, some fileA3⟩, ⟨gs "b.go", false, none⟩, ⟨gs "c.go", false, some fileC3⟩]

/-! ### Claims -/

def cfgC1 : GearConfig :=
  ⟨[], [(gs "R02", gs "warning"), (gs "R06-interface-usage", gs "warning")]⟩

def runC1 : RunOutcome := validateProject true (some cfgC1) [] scenCFS [] true true

/-- C1: the claim says a diagnostic's effective severity is the
configuration's override for its rule identifier when present (so with
`rules.R02 = "warning"` the Scenario C diagnostic is reported as a
warning and the run exits 0).  Evaluating the code at that failing input:
`config.Rules` is loaded but never consulted, the Scenario C diagnostics
are reported with their hard-coded severity "error" — even with the
override keyed both by the documented identifier R02 and by the actually
emitted identifier R06-interface-usage — and the exit code is 1, while
the claim's effective severity of every produced diagnostic is
"warning". -/
theorem C1_severity_overrides_ignored :
    runC1.exitCode = some 1 ∧
    runC1.diags ≠ [] ∧
    runC1.diags.all (fun d => d.Severity == gs "error") = true ∧
    runC1.diags.all (fun d => specEffectiveSeverity cfgC1.Rules d == gs "warning") = true := by
  decide

def cfgC2 : GearConfig := ⟨[], [(gs "R06-interface-usage", gs "warning")]⟩

def runC2 : RunOutcome := validateProject true (some cfgC2) [] scenCFS [] true true

/-- C2 counterexample: at the Scenario C tree with a configuration that
overrides the emitted rule identifier to "warning", the claimed
equivalence "exit 1 iff some diagnostic has effective severity error
after overrides" is false: every produced diagnostic's effective severity
is "warning", yet the run exits 1. -/
theorem C2_counterexample :
    ¬ ((runC2.exitCode = some 1) ↔
        ∃ d ∈ runC2.diags, specEffectiveSeverity cfgC2.Rules d = gs "error") := by
  decide

/-- C2 (amended): for every loaded package list and filesystem state, the
report phase exits 1 iff at least one produced diagnostic has *coded*
severity "error" — configuration severity overrides are never applied. -/
theorem C2_exit_iff_coded_error (env : ExtEnv) (c e : Bool) (pkgs : List PackageM) :
    exitCodeOf (runRules env c e pkgs) = 1 ↔
      ∃ d ∈ runRules env c e pkgs, d.Severity = gs "error" := by
  unfold exitCodeOf errorCount
  constructor
  · intro h
    by_cases hp : 0 < (runRules env c e pkgs).countP (fun d => d.Severity == gs "error")
    · obtain ⟨d, hd, hdp⟩ := List.countP_pos_iff.mp hp
      exact ⟨d, hd, by simpa using hdp⟩
    · simp [hp] at h
  · rintro ⟨d, hd, hsev⟩
    have hp : 0 < (runRules env c e pkgs).countP (fun d => d.Severity == gs "error") :=
      List.countP_pos_iff.mpr ⟨d, hd, by simp [hsev]⟩
    simp [hp]

/-- Witness instantiating the amended C2 theorem at a concrete run: one
package whose file declares an unexported interface (an R01 error). -/
theorem C2_exit_iff_coded_error_witness :
    exitCodeOf (runRules [] true true [pkgP]) = 1 ↔
      ∃ d ∈ runRules [] true true [pkgP], d.Severity = gs "error" :=
  C2_exit_iff_coded_error [] true true [pkgP]

/-- C3: the claim (a design requirement the spec states as correcting the
source) says a per-file parse failure is recorded as an "unparsable file"
diagnostic and the rest of the tree is still loaded.  Evaluating the code
at a tree whose middle file fails to parse: the walk aborts at the
failure, only the files before it are loaded (the third file is absent),
no diagnostic of any kind is produced, and the whole run returns a fatal
error instead of a report. -/
theorem C3_parse_failure_aborts :
    parseProject scen3FS [] = ([⟨gs "alpha", [(gs "a.go", fileA3)]⟩], true) ∧
    validateProject true (some ⟨[], []⟩) [] scen3FS [] true true = .fatal := by
  decide

/-- C4: the claim says Scenario C yields exactly one R02 error
diagnostic.  Evaluating the code: the `ast.Inspect` traversal reports the
same field twice — once from the struct-field case and once from the
nested star-expression case — and both diagnostics carry the identifier
`R06-interface-usage`, not R02. -/
theorem C4_duplicate_diagnostics_wrong_id :
    scenCUsage =
      [⟨gs "R06-interface-usage", scenCPath, 6, 8, msgFieldPtr (gs "repo") (gs "Repo"), gs "error"⟩,
       ⟨gs "R06-interface-usage", scenCPath, 6, 8, msgBarePtr (gs "Repo"), gs "error"⟩] ∧
    scenCUsage.length ≠ 1 ∧
    (scenCUsage.filter (fun d => goStartsWith d.Rule (gs "R02"))).length = 0 := by
  decide

/-- The diagnostic `validateCentralizedConfig` emits when the directory
probe fails. -/
def missingConfigDiag : ValidationError :=
  ⟨gs "R04-centralized-config", gs "internal/config", 0, 0,
   gs "Missing internal/config package - GEAR requires centralized configuration", gs "error"⟩

/-- C5: the claim says a tree without the designated configuration
directory yields exactly one centralized-configuration error diagnostic
regardless of how many packages were loaded.  Evaluating the code on a
two-package tree: the checker runs once per package, so the identical
diagnostic is emitted twice, and it carries the identifier
`R04-centralized-config` rather than R05. -/
theorem C5_one_diagnostic_per_package :
    runRules [] false true [pkgA, pkgB] = [missingConfigDiag, missingConfigDiag] ∧
    (runRules [] false true [pkgA, pkgB]).length ≠ 1 := by
  decide

/-- C6: the claim (a corrected-determinism requirement) says diagnostic
output is byte-identical across runs and sorted by file path, line,
column, rule.  Evaluating the code: the diagnostics are emitted in
package-map iteration order with no sort, so two iteration orders of the
same package map produce different outputs, and one of them lists file
`q/q.go` before `p/p.go` (not sorted by path). -/
theorem C6_output_depends_on_map_order :
    runRules [] true true [pkgP, pkgQ] ≠ runRules [] true true [pkgQ, pkgP] ∧
    (runRules [] true true [pkgQ, pkgP]).map (fun d => d.File) = [gs "q/q.go", gs "p/p.go"] := by
  decide

def mylibFile : FileM := ⟨gs "mylib", [], []⟩

/-- C7 counterexample: pattern "vendor" occurs in "myvendor/file.go" only
as a proper substring of the segment "myvendor" — not as a full path
segment — yet the containment rule matches it; likewise pattern "lib"
against "mylib/file.go", where the walk actually skips the file (the
"vendor" pair never reaches the user-pattern loop because of the
unconditional vendor filter, so the walk-level effect is shown with
"lib"). -/
theorem C7_counterexample :
    specFullSegment (gs "vendor") (gs "myvendor/file.go") = false ∧
    containmentMatch (gs "vendor") (gs "myvendor/file.go") = true ∧
    specFullSegment (gs "lib") (gs "mylib/file.go") = false ∧
    containmentMatch (gs "lib") (gs "mylib/file.go") = true ∧
    walkDecision [gs "lib"] (gs "mylib/file.go") false (some mylibFile) = .cont := by
  decide

/-- C7 (amended): for every pattern, a path in which the pattern appears
as a full path segment is excluded by the containment rule — but the
implication is one-directional: the rule also excludes paths where the
pattern is merely a proper suffix of a non-final segment (see the
counterexample). -/
theorem C7_full_segment_implies_exclusion (pat path : GoStr)
    (h : specFullSegment pat path = true) : containmentMatch pat path = true := by
  simp only [specFullSegment, Bool.or_eq_true, goStartsWith, goContains, goHasSuffix,
    decide_eq_true_eq] at h
  simp only [containmentMatch, Bool.or_eq_true, goContains, goHasSuffix, decide_eq_true_eq]
  rcases h with (h | h) | h
  · -- leading segment: (pat ++ "/") ++ t = path for some t
    obtain ⟨t, ht⟩ := h
    exact Or.inl ⟨[], t, by simpa using ht⟩
  · -- interior segment: s ++ ("/" ++ pat ++ "/") ++ t = path for some s, t
    obtain ⟨s, t, hst⟩ := h
    refine Or.inl ⟨s ++ gs "/", t, ?_⟩
    rw [← hst]
    simp
  · -- final segment: "/" ++ pat is a suffix
    exact Or.inr h

/-- Witness for the amended C7 theorem at a concrete input: pattern "v"
is a full (interior) segment of "a/v/b.go" and the containment rule
excludes that path. -/
theorem C7_full_segment_implies_exclusion_witness :
    specFullSegment (gs "v") (gs "a/v/b.go") = true ∧
    containmentMatch (gs "v") (gs "a/v/b.go") = true :=
  ⟨by decide, C7_full_segment_implies_exclusion (gs "v") (gs "a/v/b.go") (by decide)⟩

/-- C8: the claim says a directory is pruned (not descended into) iff its
final path segment equals some exclusion pattern exactly.  Evaluating the
code: a directory named "scripts" with exclusion pattern "scripts" is
*not* pruned — the callback dismisses every path that does not end in
".go" before the pruning check can run, so the walk descends and files
underneath are filtered individually; conversely, a directory whose path
merely *ends with* a pattern (directory "ab.go", pattern "b.go") is
pruned even though its final segment differs from the pattern. -/
theorem C8_no_directory_pruning :
    walkDecision [gs "scripts"] (gs "scripts") true none = .cont ∧
    walkDecision [gs "scripts"] (gs "scripts") true none ≠ .skipDir ∧
    walkDecision [gs "b.go"] (gs "ab.go") true none = .skipDir := by
  decide

/-- C9: the claim says each checker emits under its documented §4.3
identifier (interface usage → R02, constructor patterns → R03,
centralized configuration → R05, systematic error handling → R06).
Evaluating the code: the four checkers emit under `R06-interface-usage`,
`R02-constructor-patterns`, `R04-centralized-config` and
`R05-systematic-errors` respectively — none of which starts with its
documented identifier. -/
theorem C9_emitted_ids_mismatch :
    scenCUsage.map (fun d => d.Rule) = [gs "R06-interface-usage", gs "R06-interface-usage"] ∧
    scenEDiags.map (fun d => d.Rule) = [gs "R02-constructor-patterns"] ∧
    (validateCentralizedConfig false pkgA).map (fun d => d.Rule) = [gs "R04-centralized-config"] ∧
    (validateSystematicErrors false pkgA).map (fun d => d.Rule) = [gs "R05-systematic-errors"] ∧
    goStartsWith (gs "R06-interface-usage") (gs "R02") = false ∧
    goStartsWith (gs "R02-constructor-patterns") (gs "R03") = false ∧
    goStartsWith (gs "R04-centralized-config") (gs "R05") = false ∧
    goStartsWith (gs "R05-systematic-errors") (gs "R06") = false := by
  decide

/-- Any path containing "vendor/" is dismissed by the walk callback's
first, unconditional filter with a plain `return nil`. -/
theorem walkDecision_vendor (excl : List GoStr) (path : GoStr) (isDir : Bool)
    (parsed : Option FileM) (h : goContains path (gs "vendor/") = true) :
    walkDecision excl path isDir parsed = .cont := by
  unfold walkDecision
  simp [h]

/-- A file found in the package map right after `addFile` was either
already in the map or is exactly the file just added. -/
theorem mem_addFile {pkgs : List PackageM} {path : GoStr} {f : FileM}
    {pkg : PackageM} {pf : GoStr × FileM}
    (hpkg : pkg ∈ addFile pkgs path f) (hpf : pf ∈ pkg.files) :
    (∃ pkg' ∈ pkgs, pf ∈ pkg'.files) ∨ pf = (path, f) := by
  unfold addFile at hpkg
  split at hpkg
  · obtain ⟨p', hp', hpeq⟩ := List.mem_map.mp hpkg
    split at hpeq
    · subst hpeq
      rcases List.mem_append.mp hpf with h1 | h1
      · exact Or.inl ⟨p', hp', h1⟩
      · exact Or.inr (by simpa using h1)
    · subst hpeq
      exact Or.inl ⟨p', hp', hpf⟩
  · rcases List.mem_append.mp hpkg with h1 | h1
    · exact Or.inl ⟨pkg, h1, hpf⟩
    · have he : pkg = ⟨f.pkgName, [(path, f)]⟩ := by simpa using h1
      subst he
      exact Or.inr (by simpa using hpf)

/-- One unfolding step of `runWalk` on a cons cell. -/
theorem runWalk_cons (excl : List GoStr) (e : FSEntry) (rest : List FSEntry)
    (skipping : Option GoStr) (acc : List PackageM) :
    runWalk excl (e :: rest) skipping acc =
      if skippedBy skipping e.path then runWalk excl rest skipping acc
      else
        match walkDecision excl e.path e.isDir e.parsed with
        | .cont => runWalk excl rest none acc
        | .skipDir => runWalk excl rest (some e.path) acc
        | .parseAdd f => runWalk excl rest none (addFile acc e.path f)
        | .stop => (acc, true) := rfl

/-- Walk invariant: the package map built by the walk never contains a
file whose path has "vendor/" as a substring. -/
theorem runWalk_vendor_free (excl : List GoStr) :
    ∀ (fs : List FSEntry) (skipping : Option GoStr) (acc : List PackageM),
      (∀ pkg ∈ acc, ∀ pf ∈ pkg.files, goContains pf.1 (gs "vendor/") = false) →
      ∀ pkg ∈ (runWalk excl fs skipping acc).1, ∀ pf ∈ pkg.files,
        goContains pf.1 (gs "vendor/") = false := by
  intro fs
  induction fs with
  | nil =>
    intro skipping acc hacc
    exact hacc
  | cons e rest ih =>
    intro skipping acc hacc
    rw [runWalk_cons]
    split
    · exact ih skipping acc hacc
    · split
      · exact ih none acc hacc
      · exact ih (some e.path) acc hacc
      · next f hd =>
        refine ih none (addFile acc e.path f) ?_
        intro pkg hpkg pf hpf
        rcases mem_addFile hpkg hpf with ⟨pkg', hp', hpf'⟩ | hpfeq
        · exact hacc pkg' hp' pf hpf'
        · subst hpfeq
          cases hv : goContains e.path (gs "vendor/") with
          | false => rfl
          | true =>
            rw [walkDecision_vendor excl e.path e.isDir e.parsed hv] at hd
            cases hd
      · exact hacc

/-- C10: vendored code is unconditionally excluded — for every file path
containing "vendor/" the walk callback never parses it (first conjunct),
and no package produced by the load phase contains such a file (second
conjunct), independently of the user's exclusion configuration. -/
theorem C10_vendor_always_excluded :
    (∀ (excl : List GoStr) (path : GoStr) (isDir : Bool) (parsed : Option FileM) (f : FileM),
        goContains path (gs "vendor/") = true →
        walkDecision excl path isDir parsed ≠ WalkAction.parseAdd f) ∧
    (∀ (fs : List FSEntry) (excl : List GoStr), ∀ pkg ∈ (parseProject fs excl).1,
        ∀ pf ∈ pkg.files, goContains pf.1 (gs "vendor/") = false) := by
  constructor
  · intro excl path isDir parsed f h
    rw [walkDecision_vendor excl path isDir parsed h]
    simp
  · intro fs excl pkg hpkg pf hpf
    exact runWalk_vendor_free excl fs none []
      (fun pkg0 hpkg0 => ((List.not_mem_nil pkg0) hpkg0).elim) pkg hpkg pf hpf

def vendorWitFS : List FSEntry := [⟨gs "x/a.go", false, some emptyFileA⟩]

/-- Witness for C10 at concrete inputs: the callback refuses to parse
"a/vendor/x.go", and the package loaded from the one-file tree
`[x/a.go]` contains no vendored path. -/
theorem C10_vendor_always_excluded_witness :
    walkDecision [] (gs "a/vendor/x.go") false (some emptyFileA) ≠ WalkAction.parseAdd emptyFileA ∧
    goContains (gs "x/a.go") (gs "vendor/") = false :=
  ⟨C10_vendor_always_excluded.1 [] (gs "a/vendor/x.go") false (some emptyFileA) emptyFileA
     (by decide),
   C10_vendor_always_excluded.2 vendorWitFS [] ⟨gs "a", [(gs "x/a.go", emptyFileA)]⟩ (by decide)
     (gs "x/a.go", emptyFileA) (by decide)⟩
